import Mathlib

/-!
Verification development for the gateway layer of the Indo-Legal-RAG
chat application: the two Next.js route handlers (the "extended" handler
with retry, and the "interactive" handler with a simulated character
stream), embedded shallowly in Lean.

Strings coming from JavaScript are modelled as Lean `String`s; where the
JavaScript semantics is about UTF-16 code units (`split("")`), we map a
`String` to its list of UTF-16 code units explicitly.
-/

namespace Gateway

/-- A chat message from the inbound request body (`{role, content}`). -/
structure Msg where
  role : String
  content : String
deriving DecidableEq, Repr

/-- A cited source inside the backend reply (`Source` in `lib/types.ts`).
The floating-point `score` is modelled as a rational. -/
structure Source where
  source : String
  page : Nat
  doc_type : String
  score : ℚ
  retrieval_source : String
deriving DecidableEq, Repr

/-- The backend reply body (`ChatResponse` in `lib/types.ts`). -/
structure ChatResponse where
  jawaban : String
  sumber : List Source
  konteks : Option String
  pertanyaan : String
deriving DecidableEq, Repr

/-- The canonical request sent to the backend (`ChatRequest` in
`lib/types.ts`); `temperature` is a rational. -/
structure ChatRequest where
  pertanyaan : String
  top_k : Nat
  max_tokens : Nat
  temperature : ℚ
  include_context : Bool
deriving DecidableEq, Repr

/-- A JavaScript error as the handlers observe it: `message` is
`String(err)` and `cause` is `String(err.cause)` when a cause exists. -/
structure JsError where
  message : String
  cause : Option String
deriving DecidableEq, Repr

/-- An HTTP response from `fetch`: its status, the text `text()` would
return, and the value `json()` would produce. -/
structure HttpResponse where
  status : Nat
  bodyText : String
  data : ChatResponse
deriving DecidableEq, Repr

/-- Outcome of one `fetch` call: either a response or a thrown error. -/
inductive AttemptResult where
  | response (r : HttpResponse)
  | failure (e : JsError)
deriving DecidableEq, Repr

/-- `Response.ok`: status in the 2xx range. -/
def respOk (r : HttpResponse) : Bool :=
  decide (200 ≤ r.status) && decide (r.status < 300)

/-- Does `pat` occur at the start of `l`? (helper for JS `includes`). -/
def leadsWith : List Char → List Char → Bool
  | [], _ => true
  | _ :: _, [] => false
  | p :: pt, c :: ct => p == c && leadsWith pt ct

/-- Does `pat` occur as a contiguous run somewhere in `l`? -/
def hasSeq (pat : List Char) : List Char → Bool
  | [] => pat.isEmpty
  | c :: t => leadsWith pat (c :: t) || hasSeq pat t

/-- JavaScript `s.includes(pat)`. -/
def jsIncludes (s pat : String) : Bool :=
  hasSeq pat.data s.data

/-- The extended handler's error classification (route line 87-92):
`errStr.includes("ECONNREFUSED") || errStr.includes("fetch failed") ||
causeStr.includes("ECONNREFUSED")`, where `causeStr` is `""` when the
error has no cause. -/
def isConnectionError (e : JsError) : Bool :=
  jsIncludes e.message "ECONNREFUSED" ||
  jsIncludes e.message "fetch failed" ||
  jsIncludes (e.cause.getD "") "ECONNREFUSED"

/-- `messages.filter((m) => m.role === "user").pop()`. -/
def lastUserMessage (ms : List Msg) : Option Msg :=
  (ms.filter (fun m => m.role == "user")).getLast?

/-- JS truthiness test on an optional string: falsy when absent or `""`. -/
def jsFalsy : Option String → Bool
  | none => true
  | some s => s == ""

/-- The extended handler's question extraction: `let userQuestion =
pertanyaan; if (!userQuestion && messages) { userQuestion =
lastUserMessage?.content }`. An empty `messages` array is still truthy
in JavaScript, so `Option.some []` takes the branch. -/
def extendedUserQuestion (pertanyaan : Option String)
    (messages : Option (List Msg)) : Option String :=
  if jsFalsy pertanyaan && messages.isSome then
    (lastUserMessage (messages.getD [])).map Msg.content
  else
    pertanyaan

/-- The extended handler's fixed request defaults (route lines 62-68). -/
def extendedChatRequest (q : String) : ChatRequest :=
  { pertanyaan := q, top_k := 5, max_tokens := 2048,
    temperature := 0.5, include_context := false }

/-- The interactive handler's fixed request defaults (route lines 26-32). -/
def interactiveChatRequest (q : String) : ChatRequest :=
  { pertanyaan := q, top_k := 5, max_tokens := 800,
    temperature := 0.7, include_context := false }

/-- Extended-handler normalization: `none` means the handler answers
HTTP 400 `{"error":"No user message found"}` without contacting the
backend; `some req` is the canonical request it will send. -/
def extendedCheck (pertanyaan : Option String)
    (messages : Option (List Msg)) : Option ChatRequest :=
  let uq := extendedUserQuestion pertanyaan messages
  if jsFalsy uq then none else some (extendedChatRequest (uq.getD ""))

/-- Interactive-handler normalization: the validation is merely
`if (!lastUserMessage)` — presence of a user-role entry, with no check
on its content. -/
def interactiveCheck (messages : Option (List Msg)) : Option ChatRequest :=
  match messages with
  | none => none
  | some ms => (lastUserMessage ms).map (fun m => interactiveChatRequest m.content)

/-- `MAX_RETRIES` constant of the extended handler. -/
def MAX_RETRIES : Nat := 5

/-- `RETRY_DELAY` constant of the extended handler (milliseconds). -/
def RETRY_DELAY : Nat := 8000

/-- Result of the extended handler's retry loop: the response that broke
the loop or the error that escaped it, with the attempt number at loop
exit and the accumulated waiting in milliseconds. -/
inductive LoopResult where
  | success (r : HttpResponse) (attempt : Nat) (totalDelay : Nat)
  | thrown (e : JsError) (attempt : Nat) (totalDelay : Nat)
deriving DecidableEq, Repr

/-- The extended handler's retry loop (route lines 71-104): try `fetch`;
break on any response; on a thrown error, retry after a fixed 8-second
delay when the error classifies as a connection error and attempts
remain, otherwise rethrow. The loop condition `attempt < MAX_RETRIES`
is carried structurally as `remaining = MAX_RETRIES - attempt`:
`remaining = 0` exactly when the current attempt is the final one. -/
def runRetryAux (fetch : Nat → AttemptResult) :
    (remaining : Nat) → (attempt : Nat) → (acc : Nat) → LoopResult
  | 0, attempt, acc =>
    match fetch attempt with
    | .response r => .success r attempt acc
    | .failure e => .thrown e attempt acc
  | rem + 1, attempt, acc =>
    match fetch attempt with
    | .response r => .success r attempt acc
    | .failure e =>
      if isConnectionError e then
        runRetryAux fetch rem (attempt + 1) (acc + RETRY_DELAY)
      else
        .thrown e attempt acc

/-- The retry loop entered at attempt 1 with no waiting accumulated
(`for (let attempt = 1; attempt <= MAX_RETRIES; attempt++)`). -/
def runRetry (fetch : Nat → AttemptResult) : LoopResult :=
  runRetryAux fetch (MAX_RETRIES - 1) 1 0

/-- What the extended handler sends back to the caller (status and body
shape), ignoring headers. -/
inductive ExtResult where
  | validationError (status : Nat) (error : String)
  | ok (status : Nat) (data : ChatResponse)
  | backendError (status : Nat) (error : String) (details : String)
  | thrown (e : JsError)
deriving DecidableEq, Repr

/-- The whole extended POST handler (route lines 43-119), up to but not
including the outer catch's mapping of thrown errors to 503/504/500:
validate, run the retry loop against the abstract transport `fetch`,
then branch on `backendResponse.ok`. The second component is the total
waiting inserted between attempts, in milliseconds. -/
def extendedHandler (pertanyaan : Option String) (messages : Option (List Msg))
    (fetch : Nat → AttemptResult) : ExtResult × Nat :=
  match extendedCheck pertanyaan messages with
  | none => (.validationError 400 "No user message found", 0)
  | some _req =>
    match runRetry fetch with
    | .success r _ d =>
      if respOk r then (.ok 200 r.data, d)
      else (.backendError r.status "Backend request failed" r.bodyText, d)
    | .thrown e _ d => (.thrown e, d)

/-- One UTF-16 code unit of a JavaScript string, as a `Nat`. -/
def charUtf16 (c : Char) : List Nat :=
  if c.val.toNat < 0x10000 then [c.val.toNat]
  else [0xD800 + (c.val.toNat - 0x10000) / 0x400,
        0xDC00 + (c.val.toNat - 0x10000) % 0x400]

/-- A Lean `String` as the list of UTF-16 code units of the equal
JavaScript string; `split("")` yields exactly one one-unit string per
element of this list. -/
def utf16Units (s : String) : List Nat :=
  s.data.flatMap charUtf16

/-- A frame of the simulated stream: one `0:<json>` data line per code
unit, one `d:{"finishReason":"stop"}` terminal line. -/
inductive StreamFrame where
  | textFragment (payload : List Nat)
  | done
  | error (msg : String)
deriving DecidableEq, Repr

/-- The stream adapter (route lines 71-96): one `TextFragment` per
element of `split("")`, in order, then exactly one `Done`. -/
def adaptFrames (units : List Nat) : List StreamFrame :=
  units.map (fun u => StreamFrame.textFragment [u]) ++ [StreamFrame.done]

/-- The payload of a text fragment, `none` for other frames. -/
def framePayload : StreamFrame → Option (List Nat)
  | .textFragment p => some p
  | _ => none

/-- Is this frame a text fragment? -/
def isTextFragment : StreamFrame → Bool
  | .textFragment _ => true
  | _ => false

/-- Number of `TextFragment` frames in a stream. -/
def countTextFrames (l : List StreamFrame) : Nat :=
  (l.filter isTextFragment).length

/-- Concatenation of all `TextFragment` payloads, in emission order. -/
def joinPayloads (l : List StreamFrame) : List Nat :=
  (l.filterMap framePayload).flatten

/-- JavaScript `split(sep)` on a list of characters (the separator here
is always the BMP character `/`, so splitting by `Char` agrees with
splitting by code unit). -/
def splitOnCharL (sep : Char) : List Char → List (List Char)
  | [] => [[]]
  | c :: t =>
    match splitOnCharL sep t with
    | [] => [[]]
    | h :: rt => if c = sep then [] :: h :: rt else (c :: h) :: rt

/-- `source.split("/").pop() || source.source` (route line 63 of the
interactive handler): the last segment of the split, falling back to the
whole string when that segment is empty. -/
def displayName (src : String) : String :=
  match (splitOnCharL '/' src.data).getLast? with
  | none => src
  | some last => if last.isEmpty then src else String.mk last

/-- JavaScript `Number.prototype.toFixed(1)` on an exact rational:
round `x·10` to the nearest integer, half away from zero, and print one
digit after the point. -/
def toFixed1 (x : ℚ) : String :=
  if x < 0 then
    let n := (Int.floor (-x * 10 + 1 / 2)).toNat
    "-" ++ toString (n / 10) ++ "." ++ toString (n % 10)
  else
    let n := (Int.floor (x * 10 + 1 / 2)).toNat
    toString (n / 10) ++ "." ++ toString (n % 10)

/-- One citation line: `${idx + 1}. ${fileName} (Hal. ${source.page},
Skor: ${(source.score * 100).toFixed(1)}%)\n`. -/
def citationLine (idx : Nat) (s : Source) : String :=
  toString (idx + 1) ++ ". " ++ displayName s.source ++ " (Hal. " ++
  toString s.page ++ ", Skor: " ++ toFixed1 (s.score * 100) ++ "%)\n"

/-- The citation formatter (route lines 59-68): starting from the
answer, when sources exist append the delimiter-and-header block and
then one citation line per source via `forEach`. -/
def formatCitations (jawaban : String) (sumber : List Source) : String :=
  if sumber.length > 0 then
    sumber.enum.foldl (fun acc p => acc ++ citationLine p.1 p.2)
      (jawaban ++ "\n\n---\n**Sumber Referensi:**\n")
  else jawaban

/-- What the interactive handler sends back to the caller. -/
inductive IntResult where
  | validationError (status : Nat) (error : String)
  | stream (frames : List StreamFrame)
  | backendError (status : Nat) (error : String) (details : String)
  | thrown (e : JsError)
deriving DecidableEq, Repr

/-- The whole interactive POST handler (route lines 9-96), up to but not
including the outer catch: validate (presence of a user message only),
single `fetch` with no retry, branch on `ok`, then format citations and
stream the result character by character. -/
def interactiveHandler (messages : Option (List Msg))
    (fetch : AttemptResult) : IntResult :=
  match interactiveCheck messages with
  | none => .validationError 400 "No user message found"
  | some _req =>
    match fetch with
    | .failure e => .thrown e
    | .response r =>
      if respOk r then
        .stream (adaptFrames (utf16Units
          (formatCitations r.data.jawaban r.data.sumber)))
      else .backendError r.status "Backend request failed" r.bodyText

/-! ### Helper lemmas about the normalizer -/

theorem lastUserMessage_spec (l₁ l₂ : List Msg) (m : Msg)
    (hm : m.role = "user") (h2 : ∀ m' ∈ l₂, m'.role ≠ "user") :
    lastUserMessage (l₁ ++ m :: l₂) = some m := by
  unfold lastUserMessage
  rw [List.filter_append]
  have hf2 : l₂.filter (fun x => x.role == "user") = [] :=
    List.filter_eq_nil_iff.mpr (by intro a ha; simpa using h2 a ha)
  simp only [List.filter_cons, hm, beq_self_eq_true, if_true, hf2]
  exact List.getLast?_concat _

theorem lastUserMessage_is_user {ms : List Msg} {m : Msg}
    (h : lastUserMessage ms = some m) : m ∈ ms ∧ m.role = "user" := by
  unfold lastUserMessage at h
  have hmem := List.mem_of_mem_getLast? h
  rw [List.mem_filter] at hmem
  exact ⟨hmem.1, by simpa using hmem.2⟩

/-! ### Claim theorems: normalizer -/

/-- C7: for every `messages` sequence containing at least one
role="user" entry, the normalizer selects the content of the **last**
such entry as the question, regardless of its position or of
intervening entries with other roles — for both entry points. -/
theorem normalizer_selects_last_user (l₁ l₂ : List Msg) (m : Msg)
    (hm : m.role = "user") (h2 : ∀ m' ∈ l₂, m'.role ≠ "user") :
    lastUserMessage (l₁ ++ m :: l₂) = some m ∧
    interactiveCheck (some (l₁ ++ m :: l₂)) =
      some (interactiveChatRequest m.content) ∧
    (m.content ≠ "" →
      extendedCheck none (some (l₁ ++ m :: l₂)) =
        some (extendedChatRequest m.content)) := by
  have h := lastUserMessage_spec l₁ l₂ m hm h2
  refine ⟨h, ?_, ?_⟩
  · simp [interactiveCheck, h]
  · intro hc
    simp [extendedCheck, extendedUserQuestion, jsFalsy, h, hc]

theorem normalizer_selects_last_user_witness :
    lastUserMessage ([Msg.mk "assistant" "a", Msg.mk "user" "x"] ++
        Msg.mk "user" "y" :: [Msg.mk "assistant" "b"]) = some (Msg.mk "user" "y") ∧
    interactiveCheck (some ([Msg.mk "assistant" "a", Msg.mk "user" "x"] ++
        Msg.mk "user" "y" :: [Msg.mk "assistant" "b"])) =
      some (interactiveChatRequest "y") ∧
    extendedCheck none (some ([Msg.mk "assistant" "a", Msg.mk "user" "x"] ++
        Msg.mk "user" "y" :: [Msg.mk "assistant" "b"])) =
      some (extendedChatRequest "y") := by
  have h := normalizer_selects_last_user [Msg.mk "assistant" "a", Msg.mk "user" "x"]
    [Msg.mk "assistant" "b"] (Msg.mk "user" "y") rfl (by decide)
  exact ⟨h.1, h.2.1, h.2.2 (by decide)⟩

/-- C8: whenever the extended entry point's `pertanyaan` field is
present and non-empty, the `messages` list is ignored entirely and the
canonical request's question is `pertanyaan` verbatim. -/
theorem extended_question_verbatim (p : String) (hp : p ≠ "")
    (msgs : Option (List Msg)) :
    extendedCheck (some p) msgs = some (extendedChatRequest p) ∧
    (extendedChatRequest p).pertanyaan = p := by
  constructor
  · simp [extendedCheck, extendedUserQuestion, jsFalsy, hp]
  · rfl

theorem extended_question_verbatim_witness :
    extendedCheck (some "Apa itu wanprestasi?")
        (some [Msg.mk "user" "lain"]) =
      some (extendedChatRequest "Apa itu wanprestasi?") ∧
    (extendedChatRequest "Apa itu wanprestasi?").pertanyaan =
      "Apa itu wanprestasi?" :=
  extended_question_verbatim "Apa itu wanprestasi?" (by decide)
    (some [Msg.mk "user" "lain"])

/-- C9: each entry point builds the canonical backend request with its
own fixed immutable defaults — extended: top_k=5, max_tokens=2048,
temperature=0.5, include_context=false; interactive: top_k=5,
max_tokens=800, temperature=0.7, include_context=false — independent of
the inbound request's content. -/
theorem fixed_profile_defaults :
    (∀ p m req, extendedCheck p m = some req →
      req.top_k = 5 ∧ req.max_tokens = 2048 ∧ req.temperature = 0.5 ∧
      req.include_context = false) ∧
    (∀ m req, interactiveCheck m = some req →
      req.top_k = 5 ∧ req.max_tokens = 800 ∧ req.temperature = 0.7 ∧
      req.include_context = false) := by
  constructor
  · intro p m req h
    unfold extendedCheck at h
    by_cases hf : jsFalsy (extendedUserQuestion p m) = true
    · rw [if_pos hf] at h; cases h
    · rw [if_neg hf] at h
      simp only [Option.some.injEq] at h
      subst h; exact ⟨rfl, rfl, rfl, rfl⟩
  · intro m req h
    cases m with
    | none => simp [interactiveCheck] at h
    | some ms =>
      simp only [interactiveCheck] at h
      cases hl : lastUserMessage ms with
      | none => rw [hl] at h; cases h
      | some msg =>
        rw [hl] at h
        simp only [Option.map_some', Option.some.injEq] at h
        subst h; exact ⟨rfl, rfl, rfl, rfl⟩

theorem fixed_profile_defaults_witness :
    ((extendedChatRequest "q").top_k = 5 ∧
     (extendedChatRequest "q").max_tokens = 2048 ∧
     (extendedChatRequest "q").temperature = 0.5 ∧
     (extendedChatRequest "q").include_context = false) ∧
    ((interactiveChatRequest "q").top_k = 5 ∧
     (interactiveChatRequest "q").max_tokens = 800 ∧
     (interactiveChatRequest "q").temperature = 0.7 ∧
     (interactiveChatRequest "q").include_context = false) :=
  ⟨fixed_profile_defaults.1 (some "q") none _ rfl,
   fixed_profile_defaults.2 (some [Msg.mk "user" "q"]) _ rfl⟩

/-- C5 (counterexample to the claim as stated): an interactive request
whose only message is a role="user" entry with empty content has no
non-empty user content, yet the interactive handler does **not** answer
HTTP 400 — it calls the backend and streams an answer. -/
theorem validation_c5_counterexample :
    (∀ m ∈ [Msg.mk "user" ""], m.role = "user" → m.content = "") ∧
    interactiveHandler (some [Msg.mk "user" ""])
        (.response ⟨200, "", ⟨"X", [], none, "q"⟩⟩) =
      .stream [.textFragment [88], .done] ∧
    interactiveHandler (some [Msg.mk "user" ""])
        (.response ⟨200, "", ⟨"X", [], none, "q"⟩⟩) ≠
      .validationError 400 "No user message found" := by
  refine ⟨by decide, by decide, by decide⟩

/-- C5 (amended): the extended entry point satisfies the claim — when
neither `pertanyaan` nor any role="user" message yields non-empty
content it answers 400 `{"error":"No user message found"}` without
consulting the transport; the interactive entry point instead rejects
with that 400 exactly when no role="user" entry exists at all, so a
user entry with empty content passes validation and a backend call is
attempted. -/
theorem validation_no_user_message :
    (∀ (p : Option String) (msgs : Option (List Msg)),
      (p = none ∨ p = some "") →
      (∀ ms, msgs = some ms → ∀ m ∈ ms, m.role = "user" → m.content = "") →
      ∀ fetch, extendedHandler p msgs fetch =
        (.validationError 400 "No user message found", 0)) ∧
    (∀ (msgs : Option (List Msg)) (fetch : AttemptResult),
      interactiveHandler msgs fetch =
          .validationError 400 "No user message found" ↔
        interactiveCheck msgs = none) := by
  constructor
  · intro p msgs hp hm fetch
    have hfp : jsFalsy p = true := by
      rcases hp with h | h <;> simp [h, jsFalsy]
    have hcheck : extendedCheck p msgs = none := by
      unfold extendedCheck extendedUserQuestion
      cases msgs with
      | none => simp [hfp]
      | some ms =>
        simp only [hfp, Option.isSome_some, Bool.and_self, if_true]
        cases hl : lastUserMessage ms with
        | none => simp [hl, jsFalsy]
        | some m =>
          have hu := lastUserMessage_is_user hl
          have hc : m.content = "" := hm ms rfl m hu.1 hu.2
          simp [hl, jsFalsy, hc]
    simp [extendedHandler, hcheck]
  · intro msgs fetch
    constructor
    · intro h
      cases hcheck : interactiveCheck msgs with
      | none => rfl
      | some req =>
        unfold interactiveHandler at h
        rw [hcheck] at h
        cases fetch with
        | failure e => simp at h
        | response r =>
          by_cases hok : respOk r = true <;> simp [hok] at h
    · intro h
      simp [interactiveHandler, h]

theorem validation_no_user_message_witness :
    extendedHandler (some "") (some [Msg.mk "user" "", Msg.mk "assistant" "x"])
        (fun _ => .response ⟨200, "", ⟨"X", [], none, "q"⟩⟩) =
      (.validationError 400 "No user message found", 0) :=
  validation_no_user_message.1 (some "")
    (some [Msg.mk "user" "", Msg.mk "assistant" "x"])
    (Or.inr rfl) (by decide) _

/-! ### Helper lemmas about the retry loop -/

/-- The attempt number recorded at loop exit. -/
def attemptOf : LoopResult → Nat
  | .success _ a _ => a
  | .thrown _ a _ => a

theorem runRetryAux_break (fetch : Nat → AttemptResult) (rem attempt acc : Nat)
    (r : HttpResponse) (h : fetch attempt = .response r) :
    runRetryAux fetch rem attempt acc = .success r attempt acc := by
  cases rem <;> simp only [runRetryAux, h]

theorem runRetryAux_step (fetch : Nat → AttemptResult) (rem attempt acc : Nat)
    (e : JsError) (h : fetch attempt = .failure e)
    (hc : isConnectionError e = true) :
    runRetryAux fetch (rem + 1) attempt acc =
      runRetryAux fetch rem (attempt + 1) (acc + RETRY_DELAY) := by
  simp only [runRetryAux, h, hc, if_true]

theorem runRetryAux_fatal (fetch : Nat → AttemptResult) (rem attempt acc : Nat)
    (e : JsError) (h : fetch attempt = .failure e)
    (hc : isConnectionError e = false) :
    runRetryAux fetch rem attempt acc = .thrown e attempt acc := by
  cases rem with
  | zero => simp only [runRetryAux, h]
  | succ rem => simp only [runRetryAux, h, hc, Bool.false_eq_true, if_false]

theorem runRetryAux_final_fail (fetch : Nat → AttemptResult) (attempt acc : Nat)
    (e : JsError) (h : fetch attempt = .failure e) :
    runRetryAux fetch 0 attempt acc = .thrown e attempt acc := by
  simp only [runRetryAux, h]

theorem runRetryAux_attempt_ge (fetch : Nat → AttemptResult) :
    ∀ rem attempt acc, attempt ≤ attemptOf (runRetryAux fetch rem attempt acc) := by
  intro rem
  induction rem with
  | zero =>
    intro attempt acc
    cases hfa : fetch attempt with
    | response r => rw [runRetryAux_break fetch 0 attempt acc r hfa]; simp [attemptOf]
    | failure e => rw [runRetryAux_final_fail fetch attempt acc e hfa]; simp [attemptOf]
  | succ rem ih =>
    intro attempt acc
    cases hfa : fetch attempt with
    | response r =>
      rw [runRetryAux_break fetch (rem + 1) attempt acc r hfa]; simp [attemptOf]
    | failure e =>
      by_cases hc : isConnectionError e = true
      · rw [runRetryAux_step fetch rem attempt acc e hfa hc]
        exact le_trans (Nat.le_succ attempt) (ih (attempt + 1) (acc + RETRY_DELAY))
      · rw [runRetryAux_fatal fetch (rem + 1) attempt acc e hfa
          (by simpa using hc)]
        simp [attemptOf]

/-- A classification error that mentions `ECONNREFUSED` in its message
classifies as a connection error. -/
theorem isConnectionError_of_message {e : JsError}
    (h : jsIncludes e.message "ECONNREFUSED" = true) :
    isConnectionError e = true := by
  simp [isConnectionError, h]

/-! ### Claim theorems: retry loop -/

/-- C4: whenever `fetch` yields an HTTP response — 2xx or not — the
retry loop breaks immediately at that attempt; and a non-2xx response
on the first attempt is surfaced by the extended handler as its status
forwarded verbatim with an `{error, details}` body carrying the
backend's body text, after zero additional attempts and zero waiting. -/
theorem non_2xx_never_retried :
    (∀ (fetch : Nat → AttemptResult) rem attempt acc r,
      fetch attempt = .response r →
      runRetryAux fetch rem attempt acc = .success r attempt acc) ∧
    (∀ (p : Option String) (msgs : Option (List Msg)) req
        (fetch : Nat → AttemptResult) r,
      extendedCheck p msgs = some req →
      fetch 1 = .response r →
      respOk r = false →
      extendedHandler p msgs fetch =
        (.backendError r.status "Backend request failed" r.bodyText, 0)) := by
  refine ⟨runRetryAux_break, ?_⟩
  intro p msgs req fetch r hcheck hf hok
  have hloop : runRetry fetch = .success r 1 0 :=
    runRetryAux_break fetch _ 1 0 r hf
  simp [extendedHandler, hcheck, hloop, hok]

theorem non_2xx_never_retried_witness :
    extendedHandler (some "q") none
        (fun _ => .response ⟨500, "boom", ⟨"", [], none, ""⟩⟩) =
      (.backendError 500 "Backend request failed" "boom", 0) :=
  non_2xx_never_retried.2 (some "q") none (extendedChatRequest "q")
    (fun _ => .response ⟨500, "boom", ⟨"", [], none, ""⟩⟩)
    ⟨500, "boom", ⟨"", [], none, ""⟩⟩ rfl rfl rfl

/-- C1: with connection-refused failures on attempts 1–4 and a 2xx
response on attempt 5, the extended handler returns the successful
response (HTTP 200 with the parsed body), and the total waiting
inserted between attempts is exactly 4 × the fixed 8000 ms delay — one
constant delay after each failed non-final attempt, no growth, and no
delay after the final attempt. -/
theorem extended_retry_succeeds_on_fifth
    (p : Option String) (msgs : Option (List Msg)) (req : ChatRequest)
    (fetch : Nat → AttemptResult) (e₁ e₂ e₃ e₄ : JsError) (r : HttpResponse)
    (hcheck : extendedCheck p msgs = some req)
    (h1 : fetch 1 = .failure e₁) (hc1 : jsIncludes e₁.message "ECONNREFUSED" = true)
    (h2 : fetch 2 = .failure e₂) (hc2 : jsIncludes e₂.message "ECONNREFUSED" = true)
    (h3 : fetch 3 = .failure e₃) (hc3 : jsIncludes e₃.message "ECONNREFUSED" = true)
    (h4 : fetch 4 = .failure e₄) (hc4 : jsIncludes e₄.message "ECONNREFUSED" = true)
    (h5 : fetch 5 = .response r) (hok : respOk r = true) :
    extendedHandler p msgs fetch = (.ok 200 r.data, 4 * RETRY_DELAY) ∧
    4 * RETRY_DELAY = 32000 := by
  have k1 := isConnectionError_of_message hc1
  have k2 := isConnectionError_of_message hc2
  have k3 := isConnectionError_of_message hc3
  have k4 := isConnectionError_of_message hc4
  have hloop : runRetry fetch = .success r 5 32000 := by
    calc runRetry fetch
        = runRetryAux fetch 4 1 0 := by unfold runRetry; norm_num [MAX_RETRIES]
      _ = runRetryAux fetch 3 2 8000 := by
          simpa [RETRY_DELAY] using runRetryAux_step fetch 3 1 0 e₁ h1 k1
      _ = runRetryAux fetch 2 3 16000 := by
          simpa [RETRY_DELAY] using runRetryAux_step fetch 2 2 8000 e₂ h2 k2
      _ = runRetryAux fetch 1 4 24000 := by
          simpa [RETRY_DELAY] using runRetryAux_step fetch 1 3 16000 e₃ h3 k3
      _ = runRetryAux fetch 0 5 32000 := by
          simpa [RETRY_DELAY] using runRetryAux_step fetch 0 4 24000 e₄ h4 k4
      _ = .success r 5 32000 := runRetryAux_break fetch 0 5 32000 r h5
  constructor
  · have h32 : (32000 : Nat) = 4 * RETRY_DELAY := by norm_num [RETRY_DELAY]
    rw [h32] at hloop
    simp [extendedHandler, hcheck, hloop, hok]
  · norm_num [RETRY_DELAY]

theorem extended_retry_succeeds_on_fifth_witness :
    extendedHandler (some "q") none
        (fun i => if i ≤ 4
          then .failure ⟨"Error: connect ECONNREFUSED 127.0.0.1:8000", none⟩
          else .response ⟨200, "", ⟨"Jawaban", [], none, "q"⟩⟩) =
      (.ok 200 ⟨"Jawaban", [], none, "q"⟩, 4 * RETRY_DELAY) ∧
    4 * RETRY_DELAY = 32000 :=
  extended_retry_succeeds_on_fifth (some "q") none (extendedChatRequest "q")
    (fun i => if i ≤ 4
      then .failure ⟨"Error: connect ECONNREFUSED 127.0.0.1:8000", none⟩
      else .response ⟨200, "", ⟨"Jawaban", [], none, "q"⟩⟩)
    ⟨"Error: connect ECONNREFUSED 127.0.0.1:8000", none⟩
    ⟨"Error: connect ECONNREFUSED 127.0.0.1:8000", none⟩
    ⟨"Error: connect ECONNREFUSED 127.0.0.1:8000", none⟩
    ⟨"Error: connect ECONNREFUSED 127.0.0.1:8000", none⟩
    ⟨200, "", ⟨"Jawaban", [], none, "q"⟩⟩
    rfl rfl (by decide) rfl (by decide) rfl (by decide) rfl (by decide) rfl rfl

/-- The retry condition as the claim states it (for comparison with the
code's `isConnectionError`): connection-refused at the transport layer,
or a generic transport failure that wraps a connection-refused cause. -/
def specRetryable (e : JsError) : Bool :=
  jsIncludes e.message "ECONNREFUSED" ||
  (jsIncludes e.message "fetch failed" &&
    jsIncludes (e.cause.getD "") "ECONNREFUSED")

/-- C3 (counterexample to the claim as stated): a generic
`"fetch failed"` transport failure whose wrapped cause is **not**
connection-refused (here a DNS failure) is not retryable under the
claim's classification, yet the code classifies it as a connection
error and does retry: with such a failure on attempt 1 and a response
on attempt 2, the loop reaches attempt 2 instead of failing at once. -/
theorem retry_classification_counterexample :
    specRetryable ⟨"TypeError: fetch failed",
        some "Error: getaddrinfo ENOTFOUND backend"⟩ = false ∧
    isConnectionError ⟨"TypeError: fetch failed",
        some "Error: getaddrinfo ENOTFOUND backend"⟩ = true ∧
    runRetry (fun i => if i = 1
        then .failure ⟨"TypeError: fetch failed",
          some "Error: getaddrinfo ENOTFOUND backend"⟩
        else .response ⟨200, "", ⟨"X", [], none, "q"⟩⟩) =
      .success ⟨200, "", ⟨"X", [], none, "q"⟩⟩ 2 RETRY_DELAY :=
  ⟨by decide, by decide, by decide⟩

/-- C3 (amended): in the extended profile's retry loop, a failed
non-final attempt is retried if and only if its stringified error
contains `ECONNREFUSED` or contains `fetch failed`, or its stringified
cause contains `ECONNREFUSED` (`isConnectionError`); in particular a
generic `fetch failed` failure is retried even when its wrapped cause
is not connection-refused. Any other failure, and any failure on the
final attempt, is immediately fatal: the error is rethrown at that very
attempt with no further retries and no further delay. -/
theorem retry_classification (fetch : Nat → AttemptResult)
    (attempt acc : Nat) (e : JsError) (hf : fetch attempt = .failure e) :
    (∀ rem, isConnectionError e = false →
      runRetryAux fetch rem attempt acc = .thrown e attempt acc) ∧
    (runRetryAux fetch 0 attempt acc = .thrown e attempt acc) ∧
    (∀ rem, runRetryAux fetch (rem + 1) attempt acc = .thrown e attempt acc ↔
      isConnectionError e = false) ∧
    (∀ rem, isConnectionError e = true →
      runRetryAux fetch (rem + 1) attempt acc =
        runRetryAux fetch rem (attempt + 1) (acc + RETRY_DELAY)) := by
  refine ⟨fun rem hc => runRetryAux_fatal fetch rem attempt acc e hf hc,
    runRetryAux_final_fail fetch attempt acc e hf, ?_,
    fun rem hc => runRetryAux_step fetch rem attempt acc e hf hc⟩
  intro rem
  constructor
  · intro h
    by_contra hcn
    rw [Bool.not_eq_false] at hcn
    rw [runRetryAux_step fetch rem attempt acc e hf hcn] at h
    have hge := runRetryAux_attempt_ge fetch rem (attempt + 1) (acc + RETRY_DELAY)
    rw [h] at hge
    simp [attemptOf] at hge
  · intro hc
    exact runRetryAux_fatal fetch _ attempt acc e hf hc

theorem retry_classification_witness :
    runRetryAux
        (fun _ => .failure ⟨"TypeError: Failed to parse URL", none⟩)
        4 1 0 =
      .thrown ⟨"TypeError: Failed to parse URL", none⟩ 1 0 :=
  (retry_classification
    (fun _ => .failure ⟨"TypeError: Failed to parse URL", none⟩)
    1 0 ⟨"TypeError: Failed to parse URL", none⟩ rfl).1 4 (by decide)

/-! ### Helper lemmas about the stream adapter and UTF-16 units -/

theorem countTextFrames_adaptFrames (u : List Nat) :
    countTextFrames (adaptFrames u) = u.length := by
  induction u with
  | nil => rfl
  | cons x t ih =>
    simp only [countTextFrames, adaptFrames, List.map_cons, List.cons_append,
      List.filter_cons, isTextFragment, if_true, List.length_cons] at ih ⊢
    omega

theorem adaptFrames_take (u : List Nat) :
    (adaptFrames u).take u.length =
      u.map (fun x => StreamFrame.textFragment [x]) := by
  induction u with
  | nil => rfl
  | cons x t ih =>
    simp only [adaptFrames, List.map_cons, List.cons_append, List.length_cons,
      List.take_succ_cons] at *
    simp [ih]

theorem adaptFrames_drop (u : List Nat) :
    (adaptFrames u).drop u.length = [StreamFrame.done] := by
  induction u with
  | nil => rfl
  | cons x t ih =>
    simp only [adaptFrames, List.map_cons, List.cons_append, List.length_cons,
      List.drop_succ_cons] at ih ⊢
    exact ih

theorem adaptFrames_getLast (u : List Nat) :
    (adaptFrames u).getLast? = some StreamFrame.done :=
  List.getLast?_concat _

theorem adaptFrames_count_done (u : List Nat) :
    (adaptFrames u).count StreamFrame.done = 1 := by
  induction u with
  | nil => rfl
  | cons x t ih =>
    simpa [adaptFrames, List.count_cons] using ih

theorem joinPayloads_adaptFrames (u : List Nat) :
    joinPayloads (adaptFrames u) = u := by
  induction u with
  | nil => rfl
  | cons x t ih =>
    simp only [joinPayloads, adaptFrames, List.map_cons, List.cons_append,
      List.filterMap_cons, framePayload] at ih ⊢
    simp only [List.flatten_cons, List.singleton_append]
    rw [ih]

/-- The valid-codepoint bounds of a `Char`, in `Nat` form. -/
theorem char_valid_nat (c : Char) :
    c.val.toNat < 0xD800 ∨ (0xDFFF < c.val.toNat ∧ c.val.toNat < 0x110000) := by
  have h := c.valid
  unfold UInt32.isValidChar Nat.isValidChar at h
  exact h

theorem charUtf16_bmp {c : Char} (h : c.val.toNat < 0x10000) :
    charUtf16 c = [c.val.toNat] := by
  simp [charUtf16, h]

theorem charUtf16_astral {c : Char} (h : ¬ c.val.toNat < 0x10000) :
    charUtf16 c = [0xD800 + (c.val.toNat - 0x10000) / 0x400,
      0xDC00 + (c.val.toNat - 0x10000) % 0x400] := by
  simp [charUtf16, h]

/-- UTF-16 encoding of a character list is injective: the surrogate
ranges are disjoint from valid BMP code points, so the head unit always
determines how much of the stream the first character occupies. -/
theorem utf16L_injective :
    ∀ l₁ l₂ : List Char, l₁.flatMap charUtf16 = l₂.flatMap charUtf16 →
      l₁ = l₂ := by
  intro l₁
  induction l₁ with
  | nil =>
    intro l₂ h
    cases l₂ with
    | nil => rfl
    | cons c t =>
      exfalso
      rw [List.flatMap_nil, List.flatMap_cons] at h
      rcases List.append_eq_nil.mp h.symm with ⟨hc, -⟩
      by_cases hb : c.val.toNat < 0x10000 <;>
        simp [charUtf16_bmp, charUtf16_astral, hb] at hc
  | cons c t ih =>
    intro l₂ h
    cases l₂ with
    | nil =>
      exfalso
      rw [List.flatMap_nil, List.flatMap_cons] at h
      rcases List.append_eq_nil.mp h with ⟨hc, -⟩
      by_cases hb : c.val.toNat < 0x10000 <;>
        simp [charUtf16_bmp, charUtf16_astral, hb] at hc
    | cons c' t' =>
      rw [List.flatMap_cons, List.flatMap_cons] at h
      have hv := char_valid_nat c
      have hv' := char_valid_nat c'
      by_cases hb : c.val.toNat < 0x10000 <;>
        by_cases hb' : c'.val.toNat < 0x10000
      · rw [charUtf16_bmp hb, charUtf16_bmp hb'] at h
        simp only [List.cons_append, List.nil_append, List.cons.injEq] at h
        have hc : c = c' := Char.ext (UInt32.ext h.1)
        rw [hc, ih t' h.2]
      · rw [charUtf16_bmp hb, charUtf16_astral hb'] at h
        simp only [List.cons_append, List.nil_append, List.cons.injEq] at h
        exfalso
        have h1 := h.1
        omega
      · rw [charUtf16_astral hb, charUtf16_bmp hb'] at h
        simp only [List.cons_append, List.nil_append, List.cons.injEq] at h
        exfalso
        have h1 := h.1
        omega
      · rw [charUtf16_astral hb, charUtf16_astral hb'] at h
        simp only [List.cons_append, List.nil_append, List.cons.injEq] at h
        obtain ⟨h1, h2, h3⟩ := h
        have hveq : c.val.toNat = c'.val.toNat := by omega
        have hc : c = c' := Char.ext (UInt32.ext hveq)
        rw [hc, ih t' h3]

theorem utf16Units_injective {s t : String}
    (h : utf16Units s = utf16Units t) : s = t := by
  have hd := utf16L_injective s.data t.data h
  cases s; cases t; simp_all

/-! ### Claim theorems: stream adapter -/

/-- C2: for an answer text with L smallest units (the UTF-16 code units
of its JavaScript representation, the elements of `split("")`), the
interactive stream consists of exactly L `TextFragment` frames, one per
unit in original order, followed by exactly one terminal `Done` frame
with nothing after it; concatenating the fragment payloads in emission
order reconstructs the text exactly (and the unit sequence determines
the text uniquely). -/
theorem stream_adapter_round_trip (s : String) :
    countTextFrames (adaptFrames (utf16Units s)) = (utf16Units s).length ∧
    (adaptFrames (utf16Units s)).take (utf16Units s).length =
      (utf16Units s).map (fun x => StreamFrame.textFragment [x]) ∧
    (adaptFrames (utf16Units s)).drop (utf16Units s).length =
      [StreamFrame.done] ∧
    (adaptFrames (utf16Units s)).getLast? = some StreamFrame.done ∧
    (adaptFrames (utf16Units s)).count StreamFrame.done = 1 ∧
    joinPayloads (adaptFrames (utf16Units s)) = utf16Units s ∧
    (∀ t : String, utf16Units t = utf16Units s → t = s) :=
  ⟨countTextFrames_adaptFrames _, adaptFrames_take _, adaptFrames_drop _,
   adaptFrames_getLast _, adaptFrames_count_done _, joinPayloads_adaptFrames _,
   fun _ h => utf16Units_injective h⟩

theorem stream_adapter_round_trip_witness :
    countTextFrames (adaptFrames (utf16Units "Hi")) =
      (utf16Units "Hi").length ∧
    ("Hi" : String) = "Hi" :=
  ⟨(stream_adapter_round_trip "Hi").1,
   (stream_adapter_round_trip "Hi").2.2.2.2.2.2 "Hi" rfl⟩

/-- C10: the number of `TextFragment` frames equals the answer's length
in UTF-16 code units (JavaScript `split("")` semantics): a BMP
character contributes one unit, while a character beyond the BMP is
emitted as two separate one-unit fragments, a high surrogate in
[0xD800, 0xDC00) then a low surrogate in [0xDC00, 0xE000). -/
theorem stream_utf16_unit_count :
    (∀ s : String, countTextFrames (adaptFrames (utf16Units s)) =
      (utf16Units s).length) ∧
    (∀ c : Char, c.val.toNat < 0x10000 → charUtf16 c = [c.val.toNat]) ∧
    (∀ c : Char, 0x10000 ≤ c.val.toNat → ∃ hi lo,
      charUtf16 c = [hi, lo] ∧
      0xD800 ≤ hi ∧ hi < 0xDC00 ∧ 0xDC00 ≤ lo ∧ lo < 0xE000 ∧
      utf16Units (String.mk [c]) = [hi, lo] ∧
      adaptFrames (utf16Units (String.mk [c])) =
        [.textFragment [hi], .textFragment [lo], .done]) := by
  refine ⟨fun s => countTextFrames_adaptFrames _,
    fun c h => charUtf16_bmp h, fun c h => ?_⟩
  have hv := char_valid_nat c
  have hb : ¬ c.val.toNat < 0x10000 := by omega
  refine ⟨0xD800 + (c.val.toNat - 0x10000) / 0x400,
    0xDC00 + (c.val.toNat - 0x10000) % 0x400,
    charUtf16_astral hb, by omega, by omega, by omega, by omega, ?_, ?_⟩
  · show ([c].flatMap charUtf16) = _
    rw [List.flatMap_cons, List.flatMap_nil, List.append_nil,
      charUtf16_astral hb]
  · show adaptFrames ([c].flatMap charUtf16) = _
    rw [List.flatMap_cons, List.flatMap_nil, List.append_nil,
      charUtf16_astral hb]
    rfl

theorem stream_utf16_unit_count_witness :
    ∃ hi lo, charUtf16 '𝄞' = [hi, lo] ∧
      0xD800 ≤ hi ∧ hi < 0xDC00 ∧ 0xDC00 ≤ lo ∧ lo < 0xE000 ∧
      utf16Units (String.mk ['𝄞']) = [hi, lo] ∧
      adaptFrames (utf16Units (String.mk ['𝄞'])) =
        [.textFragment [hi], .textFragment [lo], .done] :=
  stream_utf16_unit_count.2.2 '𝄞' (by decide)

/-! ### Helper lemmas about the citation formatter -/

/-- Concatenation of a list of strings, in order. -/
def concatStrings : List String → String
  | [] => ""
  | s :: t => s ++ concatStrings t

theorem foldl_append_concat {α : Type} (f : α → String) :
    ∀ (l : List α) (init : String),
      l.foldl (fun acc x => acc ++ f x) init = init ++ concatStrings (l.map f) := by
  intro l
  induction l with
  | nil => intro init; simp [concatStrings]
  | cons x t ih =>
    intro init
    simp only [List.foldl_cons, List.map_cons, concatStrings]
    rw [ih, String.append_assoc]

theorem splitOnCharL_ne_nil (sep : Char) (l : List Char) :
    splitOnCharL sep l ≠ [] := by
  cases l with
  | nil => simp [splitOnCharL]
  | cons c t =>
    unfold splitOnCharL
    cases h : splitOnCharL sep t with
    | nil => simp
    | cons h' rt => by_cases hc : c = sep <;> simp [hc]

theorem splitOnCharL_no_sep (sep : Char) :
    ∀ l : List Char, sep ∉ l → splitOnCharL sep l = [l] := by
  intro l
  induction l with
  | nil => intro _; rfl
  | cons c t ih =>
    intro h
    have hc : c ≠ sep := fun hcc => h (hcc ▸ List.mem_cons_self c t)
    have ht : sep ∉ t := fun htt => h (List.mem_cons_of_mem c htt)
    unfold splitOnCharL
    rw [ih ht]
    simp [hc]

theorem splitOnCharL_mem_len (sep : Char) :
    ∀ l : List Char, sep ∈ l → 2 ≤ (splitOnCharL sep l).length := by
  intro l
  induction l with
  | nil => intro h; cases h
  | cons c t ih =>
    intro h
    unfold splitOnCharL
    cases hs : splitOnCharL sep t with
    | nil => exact absurd hs (splitOnCharL_ne_nil sep t)
    | cons h' rt =>
      by_cases hc : c = sep
      · simp [hc]
      · have ht : sep ∈ t := by
          rcases List.mem_cons.mp h with h1 | h2
          · exact absurd h1.symm hc
          · exact h2
        have := ih ht
        rw [hs] at this
        simp only [hc, if_false, List.length_cons] at this ⊢
        simpa using this

theorem splitOnCharL_getLast (sep : Char) (seg : List Char) (hseg : sep ∉ seg) :
    ∀ p : List Char,
      (splitOnCharL sep (p ++ sep :: seg)).getLast? = some seg := by
  intro p
  induction p with
  | nil =>
    rw [List.nil_append]
    unfold splitOnCharL
    rw [splitOnCharL_no_sep sep seg hseg]
    simp
  | cons c p' ih =>
    rw [List.cons_append]
    unfold splitOnCharL
    cases hs : splitOnCharL sep (p' ++ sep :: seg) with
    | nil => exact absurd hs (splitOnCharL_ne_nil sep _)
    | cons h' rt =>
      have hrt : rt ≠ [] := by
        have hlen := splitOnCharL_mem_len sep (p' ++ sep :: seg)
          (by simp)
        rw [hs] at hlen
        intro hrtnil
        rw [hrtnil] at hlen
        simp at hlen
      rw [hs] at ih
      by_cases hc : c = sep
      · simp only [hc, if_true]
        rw [List.getLast?_cons_cons]
        exact ih
      · simp only [hc, if_false]
        obtain ⟨r1, rt', rfl⟩ := List.exists_cons_of_ne_nil hrt
        rw [List.getLast?_cons_cons] at ih ⊢
        exact ih

theorem displayName_no_sep (s : String) (h : '/' ∉ s.data) :
    displayName s = s := by
  unfold displayName
  rw [splitOnCharL_no_sep '/' s.data h]
  simp only [List.getLast?_singleton]
  cases s with
  | mk d => cases d <;> rfl

theorem displayName_last_segment (p seg : String) (hne : seg ≠ "")
    (h : '/' ∉ seg.data) : displayName (p ++ "/" ++ seg) = seg := by
  unfold displayName
  have hdata : (p ++ "/" ++ seg).data = p.data ++ '/' :: seg.data := by
    rw [String.data_append, String.data_append]
    simp
  rw [hdata, splitOnCharL_getLast '/' seg.data h p.data]
  have hd : seg.data.isEmpty = false := by
    cases seg with
    | mk d =>
      cases d with
      | nil => exact absurd rfl hne
      | cons c t => rfl
  simp only [hd, Bool.false_eq_true, if_false]

/-! ### Claim theorems: citation formatter -/

/-- C6: the citation formatter is a pure function of its two inputs;
with zero sources it returns the answer unchanged; with N sources it
appends the fixed delimiter-and-header block followed by exactly N
enumerated lines in input order, the i-th line carrying the 1-based
index i+1, the display name (the last path segment of the origin, or
the origin itself when it has no `/`), the page number, and the score
times 100 rendered with one decimal place. -/
theorem citation_formatter_spec :
    (∀ a : String, formatCitations a [] = a) ∧
    (∀ (a : String) (srcs : List Source), srcs ≠ [] →
      formatCitations a srcs =
        a ++ "\n\n---\n**Sumber Referensi:**\n" ++
          concatStrings (srcs.enum.map (fun q => citationLine q.1 q.2))) ∧
    (∀ srcs : List Source,
      (srcs.enum.map (fun q => citationLine q.1 q.2)).length = srcs.length) ∧
    (∀ (srcs : List Source) (i : Nat) (h : i < srcs.length)
        (h2 : i < (srcs.enum.map (fun q => citationLine q.1 q.2)).length),
      (srcs.enum.map (fun q => citationLine q.1 q.2))[i] =
        toString (i + 1) ++ ". " ++ displayName srcs[i].source ++
        " (Hal. " ++ toString srcs[i].page ++ ", Skor: " ++
        toFixed1 (srcs[i].score * 100) ++ "%)\n") ∧
    (∀ s : String, '/' ∉ s.data → displayName s = s) ∧
    (∀ p seg : String, seg ≠ "" → '/' ∉ seg.data →
      displayName (p ++ "/" ++ seg) = seg) := by
  refine ⟨?_, ?_, ?_, ?_, displayName_no_sep, displayName_last_segment⟩
  · intro a; simp [formatCitations]
  · intro a srcs hne
    unfold formatCitations
    rw [if_pos (by simpa [List.length_pos] using hne)]
    rw [foldl_append_concat (fun q => citationLine q.1 q.2) srcs.enum
      (a ++ "\n\n---\n**Sumber Referensi:**\n")]
  · intro srcs; simp [List.enum_length]
  · intro srcs i h h2
    simp only [List.getElem_map, List.getElem_enum, citationLine]

theorem citation_formatter_spec_witness :
    formatCitations "A" [⟨"data/f.pdf", 3, "uu", (9 : ℚ)/10, "bm25"⟩] =
      "A" ++ "\n\n---\n**Sumber Referensi:**\n" ++
        concatStrings
          (([⟨"data/f.pdf", 3, "uu", (9 : ℚ)/10, "bm25"⟩] :
            List Source).enum.map (fun q => citationLine q.1 q.2)) ∧
    displayName ("data" ++ "/" ++ "f.pdf") = "f.pdf" :=
  ⟨citation_formatter_spec.2.1 "A" [⟨"data/f.pdf", 3, "uu", (9 : ℚ)/10, "bm25"⟩]
    (by simp),
   citation_formatter_spec.2.2.2.2.2 "data" "f.pdf" (by decide) (by decide)⟩

end Gateway
